import Mathlib

/-!
Verification development for the Theia task subsystem and the Git common
utilities (`packages/git/src/common/git.ts`, task backend module).

The Git utility functions are embedded from the source file directly.  The
task subsystem (`Task`, `TaskManager`, `TaskServer`) is present in the
repository only through its dependency-injection wiring; its operations are
modelled from the specification where the implementation file is missing,
and each such definition says so in its doc comment.
-/

/-- Shallow embedding of the JavaScript runtime values the Git utility
functions are applied to: `undefined`, `null`, booleans, numbers, strings,
`Error` instances (with own properties) and plain objects (with own
properties). -/
inductive JsValue where
  | undef : JsValue
  | null : JsValue
  | bool (b : Bool) : JsValue
  | num (n : Int) : JsValue
  | str (s : String) : JsValue
  | errorObj (props : List (String × JsValue)) : JsValue
  | plainObj (props : List (String × JsValue)) : JsValue

/-- JavaScript `k in o` on an object embedded as a property list: the key is
present.  (Own properties only; none of the embedded objects use prototype
chains.) -/
def objHasKey (props : List (String × JsValue)) (k : String) : Bool :=
  (List.lookup k props).isSome

/-- `error instanceof Error` for the embedded values. -/
def JsValue.isErrorInstance : JsValue → Bool
  | .errorObj _ => true
  | _ => false

/-- Property read `o.k` on the embedded values (`undefined` when absent or
when the receiver is not an object). -/
def JsValue.getProp : JsValue → String → Option JsValue
  | .errorObj props, k => List.lookup k props
  | .plainObj props, k => List.lookup k props
  | _, _ => none

/-- JavaScript strict equality `v === s` against a string literal. -/
def jsStrictEqStr (v : Option JsValue) (s : String) : Bool :=
  match v with
  | some (.str t) => t == s
  | _ => false

namespace GitUtils

/-- `const RepositoryDoesNotExistErrorCode = 'repository-does-not-exist-error'`. -/
def RepositoryDoesNotExistErrorCode : String := "repository-does-not-exist-error"

/-- `isRepositoryDoesNotExistError(error)`: `error instanceof Error && ('code' in error)`
guards the strict comparison `(<any>error).code === RepositoryDoesNotExistErrorCode`;
every other value yields `false`. -/
def isRepositoryDoesNotExistError (error : JsValue) : Bool :=
  match error with
  | .errorObj props =>
      if objHasKey props "code" then
        jsStrictEqStr (List.lookup "code" props) RepositoryDoesNotExistErrorCode
      else
        false
  | _ => false

/-- The branch/checkout type guards take `arg: any | undefined`; at every use
site the argument is an options object or `undefined`, embedded as
`Option (List (String × JsValue))`.  `!!arg` is `false` for `undefined`
and `true` for any object. -/
def argTruthy (arg : Option (List (String × JsValue))) : Bool :=
  arg.isSome

/-- `'k' in arg`, evaluated only under the `!!arg` guard. -/
def argHasKey (arg : Option (List (String × JsValue))) (k : String) : Bool :=
  match arg with
  | some props => objHasKey props k
  | none => false

/-- `isBranchRename(arg)`: `!!arg && ('newName' in arg)`. -/
def isBranchRename (arg : Option (List (String × JsValue))) : Bool :=
  argTruthy arg && argHasKey arg "newName"

/-- `isBranchDelete(arg)`: `!!arg && ('toDelete' in arg)`. -/
def isBranchDelete (arg : Option (List (String × JsValue))) : Bool :=
  argTruthy arg && argHasKey arg "toDelete"

/-- `isBranchCreate(arg)`: `!!arg && ('toCreate' in arg)`. -/
def isBranchCreate (arg : Option (List (String × JsValue))) : Bool :=
  argTruthy arg && argHasKey arg "toCreate"

/-- `isBranchList(arg)`: `!!arg && ('type' in arg)`. -/
def isBranchList (arg : Option (List (String × JsValue))) : Bool :=
  argTruthy arg && argHasKey arg "type"

/-- `isBranchCheckout(arg)`: `!!arg && ('branch' in arg)`. -/
def isBranchCheckout (arg : Option (List (String × JsValue))) : Bool :=
  argTruthy arg && argHasKey arg "branch"

/-- `isWorkingTreeFileCheckout(arg)`: `!!arg && ('paths' in arg)`. -/
def isWorkingTreeFileCheckout (arg : Option (List (String × JsValue))) : Bool :=
  argTruthy arg && argHasKey arg "paths"

end GitUtils

/-- A `Git.Options.Merge` value (`interface Merge { readonly branch: string }`)
embedded as a property list. -/
def mergeOptions (branch : String) : List (String × JsValue) :=
  [("branch", JsValue.str branch)]

/-- Key presence is equivalent to membership in the key list. -/
theorem lookup_isSome_iff_mem_keys (k : String) (props : List (String × JsValue)) :
    (List.lookup k props).isSome = true ↔ k ∈ props.map Prod.fst := by
  induction props with
  | nil => simp [List.lookup]
  | cons p rest ih =>
      by_cases hk : k = p.1
      · subst hk
        simp [List.lookup]
      · have hne : (k == p.1) = false := beq_false_of_ne hk
        simp [List.lookup, hne, ih, hk]

/-- A guard of shape `!!arg && ('k' in arg)` holds exactly on objects that carry
the key `k`. -/
theorem argGuard_true_iff (k : String) (arg : Option (List (String × JsValue))) :
    (GitUtils.argTruthy arg && GitUtils.argHasKey arg k) = true ↔
      ∃ o, arg = some o ∧ k ∈ o.map Prod.fst := by
  cases arg with
  | none => simp [GitUtils.argTruthy, GitUtils.argHasKey]
  | some o =>
      simp [GitUtils.argTruthy, GitUtils.argHasKey, objHasKey,
        lookup_isSome_iff_mem_keys]

/-- Claim C9: `isRepositoryDoesNotExistError(e)` is `true` exactly when `e` is an
`Error` instance whose `code` property is the string
`repository-does-not-exist-error`; it is `false` for `undefined`, `null`, and
plain (non-`Error`) objects carrying that code. -/
theorem isRepositoryDoesNotExistError_characterization :
    (∀ e : JsValue, GitUtils.isRepositoryDoesNotExistError e = true ↔
        ∃ props, e = JsValue.errorObj props ∧
          List.lookup "code" props = some (JsValue.str "repository-does-not-exist-error"))
    ∧ GitUtils.isRepositoryDoesNotExistError JsValue.undef = false
    ∧ GitUtils.isRepositoryDoesNotExistError JsValue.null = false
    ∧ GitUtils.isRepositoryDoesNotExistError
        (JsValue.plainObj [("code", JsValue.str "repository-does-not-exist-error")]) = false := by
  refine ⟨?_, rfl, rfl, rfl⟩
  intro e
  cases e with
  | errorObj props =>
      cases h : List.lookup "code" props with
      | none =>
          simp [GitUtils.isRepositoryDoesNotExistError, objHasKey, h]
      | some v =>
          cases v <;>
            simp [GitUtils.isRepositoryDoesNotExistError, objHasKey, h, jsStrictEqStr,
              GitUtils.RepositoryDoesNotExistErrorCode]
  | undef => simp [GitUtils.isRepositoryDoesNotExistError]
  | null => simp [GitUtils.isRepositoryDoesNotExistError]
  | bool b => simp [GitUtils.isRepositoryDoesNotExistError]
  | num n => simp [GitUtils.isRepositoryDoesNotExistError]
  | str s => simp [GitUtils.isRepositoryDoesNotExistError]
  | plainObj props => simp [GitUtils.isRepositoryDoesNotExistError]

/-- Witness for C9: the characterization applied to a concrete `Error` value
carrying the repository-does-not-exist code. -/
theorem isRepositoryDoesNotExistError_characterization_witness :
    GitUtils.isRepositoryDoesNotExistError
      (JsValue.errorObj [("code", JsValue.str "repository-does-not-exist-error")]) = true :=
  (isRepositoryDoesNotExistError_characterization.1
      (JsValue.errorObj [("code", JsValue.str "repository-does-not-exist-error")])).2
    ⟨[("code", JsValue.str "repository-does-not-exist-error")], rfl, rfl⟩

/-- A concrete truthy object carrying two distinguishing keys at once. -/
def renameDeleteOverlap : List (String × JsValue) :=
  [("newName", JsValue.str "a"), ("toDelete", JsValue.str "b")]

/-- Claim C10: each branch/checkout type guard is `true` exactly on truthy
arguments (objects) carrying its single distinguishing key, each is `false` on
`undefined`, and the guards do not partition: an object with two of the keys
satisfies two guards, and a `Git.Options.Merge` value satisfies
`isBranchCheckout`. -/
theorem gitUtils_guards_characterization :
    (∀ arg, GitUtils.isBranchRename arg = true ↔ ∃ o, arg = some o ∧ "newName" ∈ o.map Prod.fst)
    ∧ (∀ arg, GitUtils.isBranchDelete arg = true ↔ ∃ o, arg = some o ∧ "toDelete" ∈ o.map Prod.fst)
    ∧ (∀ arg, GitUtils.isBranchCreate arg = true ↔ ∃ o, arg = some o ∧ "toCreate" ∈ o.map Prod.fst)
    ∧ (∀ arg, GitUtils.isBranchList arg = true ↔ ∃ o, arg = some o ∧ "type" ∈ o.map Prod.fst)
    ∧ (∀ arg, GitUtils.isBranchCheckout arg = true ↔ ∃ o, arg = some o ∧ "branch" ∈ o.map Prod.fst)
    ∧ (∀ arg, GitUtils.isWorkingTreeFileCheckout arg = true ↔
        ∃ o, arg = some o ∧ "paths" ∈ o.map Prod.fst)
    ∧ GitUtils.isBranchRename none = false
    ∧ GitUtils.isBranchDelete none = false
    ∧ GitUtils.isBranchCreate none = false
    ∧ GitUtils.isBranchList none = false
    ∧ GitUtils.isBranchCheckout none = false
    ∧ GitUtils.isWorkingTreeFileCheckout none = false
    ∧ GitUtils.isBranchRename (some renameDeleteOverlap) = true
    ∧ GitUtils.isBranchDelete (some renameDeleteOverlap) = true
    ∧ GitUtils.isBranchCheckout (some (mergeOptions "develop")) = true :=
  ⟨fun arg => argGuard_true_iff "newName" arg,
   fun arg => argGuard_true_iff "toDelete" arg,
   fun arg => argGuard_true_iff "toCreate" arg,
   fun arg => argGuard_true_iff "type" arg,
   fun arg => argGuard_true_iff "branch" arg,
   fun arg => argGuard_true_iff "paths" arg,
   rfl, rfl, rfl, rfl, rfl, rfl, rfl, rfl, rfl⟩

/-- Witness for C10: the characterization applied to a concrete object with the
`newName` key. -/
theorem gitUtils_guards_characterization_witness :
    GitUtils.isBranchRename (some [("newName", JsValue.str "a")]) = true :=
  (gitUtils_guards_characterization.1 (some [("newName", JsValue.str "a")])).2
    ⟨[("newName", JsValue.str "a")], rfl, by simp⟩

/-- Task options (`TaskOptions` of the task package): the command to execute
and its arguments.  The command is optional at the value level so that the
`InvalidTaskOptions` validation is expressible. -/
structure TaskOptions where
  command : Option String
  args : List String
deriving DecidableEq, Repr

/-- Modelled from the spec: a task's lifecycle state is one of
Created, Running, Exited. -/
inductive TaskState where
  | Created : TaskState
  | Running : TaskState
  | Exited : TaskState
deriving DecidableEq, Repr

/-- Lifecycle events a single task emits: `started` carries the process
identifier, `exited` the exit code. -/
inductive TaskEvent where
  | started (processId : Nat) : TaskEvent
  | exited (exitCode : Int) : TaskEvent
deriving DecidableEq, Repr

/-- Stimuli that drive one task's lifecycle: an explicit `Start()` call
(spawning a process with the given pid) and the asynchronous OS notification
that the underlying process terminated. -/
inductive TaskAction where
  | start (processId : Nat) : TaskAction
  | procExit (exitCode : Int) : TaskAction
deriving DecidableEq, Repr

namespace Task

/-- Modelled from the spec: `Start()` transitions Created→Running and emits a
`started` event; a task transitions exactly once from Created→Running, so a
start in any other state does nothing.  Process termination transitions
Running→Exited and emits an `exited` event; this transition is idempotent — a
second termination signal is ignored and never re-emitted. -/
def step : TaskState → TaskAction → TaskState × List TaskEvent
  | .Created, .start pid => (.Running, [.started pid])
  | s, .start _ => (s, [])
  | .Running, .procExit c => (.Exited, [.exited c])
  | s, .procExit _ => (s, [])

/-- Run a sequence of lifecycle stimuli from a state, collecting the emitted
events in order. -/
def runActions (s : TaskState) (acts : List TaskAction) : TaskState × List TaskEvent :=
  match acts with
  | [] => (s, [])
  | a :: rest =>
      let p := step s a
      let q := runActions p.1 rest
      (q.1, p.2 ++ q.2)

end Task

/-- Errors of the task subsystem, from the spec's error taxonomy. -/
inductive TaskError where
  | TaskNotFound : TaskError
  | InvalidTaskOptions : TaskError
  | SpawnError : TaskError
deriving DecidableEq, Repr

/-- A task as retained by the registry: its configuration and current state. -/
structure ManagedTask where
  options : TaskOptions
  state : TaskState
deriving DecidableEq, Repr

/-- Modelled from the spec: the authoritative in-memory registry — a mapping
from task id to Task, append-only for the process lifetime, with a single
monotonically increasing id allocation point. -/
structure TaskManager where
  nextId : Nat
  tasks : List (Nat × ManagedTask)
deriving DecidableEq, Repr

namespace TaskManager

/-- The registry a freshly started process has: empty, ids start at 0. -/
def initial : TaskManager := { nextId := 0, tasks := [] }

/-- Modelled from the spec: `register(task)` assigns the next monotonically
increasing id, stores the mapping, returns the id; all registrations are
serialized through this single allocation point. -/
def register (m : TaskManager) (t : ManagedTask) : Nat × TaskManager :=
  (m.nextId, { nextId := m.nextId + 1, tasks := m.tasks ++ [(m.nextId, t)] })

/-- A (serialized) sequence of `register` calls, returning the ids in call
order together with the final registry. -/
def registerAll (m : TaskManager) (ts : List ManagedTask) : List Nat × TaskManager :=
  match ts with
  | [] => ([], m)
  | t :: rest =>
      let p := m.register t
      let q := p.2.registerAll rest
      (p.1 :: q.1, q.2)

/-- Modelled from the spec: `get(id)` returns the Task for a known id, or
fails with `TaskNotFound` if the id was never registered. -/
def get (m : TaskManager) (tid : Nat) : Except TaskError ManagedTask :=
  match List.lookup tid m.tasks with
  | some t => Except.ok t
  | none => Except.error TaskError.TaskNotFound

end TaskManager

/-- Modelled from the spec: the RPC façade's state — the set of currently
attached client handles, the task registry, the ids whose underlying process
has been spawned, and the advisory kill requests issued so far. -/
structure TaskServer where
  clients : List Nat
  manager : TaskManager
  spawned : List Nat
  killRequests : List Nat
deriving DecidableEq, Repr

namespace TaskServer

/-- Modelled from the spec: `setClient(client)` attaches a client handle to
the broadcast set (membership changes only via explicit attach/detach). -/
def setClient (σ : TaskServer) (c : Nat) : TaskServer :=
  if σ.clients.contains c then σ else { σ with clients := σ.clients ++ [c] }

/-- Modelled from the spec: `disconnectClient(client)` detaches a client
handle from the broadcast set; detaching an already-detached client is a
no-op, not an error. -/
def disconnectClient (σ : TaskServer) (c : Nat) : TaskServer :=
  { σ with clients := σ.clients.filter (fun x => x != c) }

/-- Modelled from the spec: `getTasks()` returns a snapshot list of
(id, state) for every known task, in creation order. -/
def getTasks (σ : TaskServer) : List (Nat × TaskState) :=
  σ.manager.tasks.map (fun p => (p.1, p.2.state))

/-- Modelled from the spec: `run(options)` validates synchronously that a
command is present and fails with `InvalidTaskOptions` otherwise, before any
registration or spawn; on success it registers the task and spawns its
process, returning the new id. -/
def run (σ : TaskServer) (opts : TaskOptions) : Except TaskError Nat × TaskServer :=
  match opts.command with
  | none => (Except.error TaskError.InvalidTaskOptions, σ)
  | some _ =>
      let p := σ.manager.register { options := opts, state := TaskState.Running }
      (Except.ok p.1, { σ with manager := p.2, spawned := σ.spawned ++ [p.1] })

/-- Modelled from the spec: `kill(id)` forwards to `Task.Kill` for the given
id (advisory: it records the termination request, the authoritative state
transition happens only on OS exit confirmation) and fails with
`TaskNotFound`, mutating no state, if the id is unknown. -/
def kill (σ : TaskServer) (tid : Nat) : Except TaskError Unit × TaskServer :=
  match List.lookup tid σ.manager.tasks with
  | none => (Except.error TaskError.TaskNotFound, σ)
  | some _ => (Except.ok (), { σ with killRequests := σ.killRequests ++ [tid] })

/-- Modelled from the spec: event fan-out — the server iterates a snapshot of
the current attached-client set and pushes the event to each. -/
def fanout (σ : TaskServer) (e : TaskEvent) : List (Nat × TaskEvent) :=
  σ.clients.map (fun c => (c, e))

end TaskServer

/-- The operations that change which clients observe task-state events:
attaching a client, detaching a client, and a managed task emitting an
event that the server broadcasts. -/
inductive ServerOp where
  | attach (c : Nat) : ServerOp
  | detach (c : Nat) : ServerOp
  | emitEvent (e : TaskEvent) : ServerOp
deriving DecidableEq, Repr

/-- One step of the server's client bookkeeping and broadcast behaviour,
returning the new state and the deliveries (client, event) made by the step. -/
def serverStep (σ : TaskServer) (op : ServerOp) : TaskServer × List (Nat × TaskEvent) :=
  match op with
  | .attach c => (σ.setClient c, [])
  | .detach c => (σ.disconnectClient c, [])
  | .emitEvent e => (σ, σ.fanout e)

/-- Run a sequence of server operations, concatenating all deliveries in
order. -/
def serverRun (σ : TaskServer) (ops : List ServerOp) : TaskServer × List (Nat × TaskEvent) :=
  match ops with
  | [] => (σ, [])
  | op :: rest =>
      let p := serverStep σ op
      let q := serverRun p.1 rest
      (q.1, p.2 ++ q.2)

/-- A task as built by the factory: the child container (configuration scope)
it was constructed in, and the reference to the `TaskOptions` object bound in
that scope. -/
structure FactoryTask where
  scopeId : Nat
  optionsRef : Nat
deriving DecidableEq, Repr

/-- The mutable world the factory operates in: a heap of options objects
addressed by reference, and a counter of allocated child containers.  The
caller owns references into the heap and may mutate the objects they point
to. -/
structure FactoryState where
  heap : List TaskOptions
  nextScope : Nat
deriving DecidableEq, Repr

namespace TaskFactory

/-- `bind(TaskFactory).toFactory` of the task backend module: each call
allocates a fresh child container (`new Container(...)`, a fresh scope) and
binds `TaskOptions` with `toConstantValue(options)` — the caller's object
reference itself; no copy of the options object is made. -/
def create (st : FactoryState) (optionsRef : Nat) : FactoryTask × FactoryState :=
  ({ scopeId := st.nextScope, optionsRef := optionsRef },
   { st with nextScope := st.nextScope + 1 })

end TaskFactory

/-- Caller-side mutation of an options object: overwrite the heap cell a
reference points to. -/
def FactoryState.write (st : FactoryState) (r : Nat) (v : TaskOptions) : FactoryState :=
  { st with heap := st.heap.set r v }

/-- The configuration a task observes: dereference its bound options
reference in the current heap. -/
def FactoryTask.config (st : FactoryState) (t : FactoryTask) : Option TaskOptions :=
  st.heap.get? t.optionsRef

/-- Concrete options objects used in counterexamples and witnesses. -/
def echoOptions : TaskOptions := { command := some "echo", args := ["hi"] }

/-- A different options value, standing for a caller-side mutation. -/
def mutatedOptions : TaskOptions := { command := some "rm", args := ["-rf"] }

/-- A world with one shared options object and no scopes allocated yet. -/
def c1State0 : FactoryState := { heap := [echoOptions], nextScope := 0 }

/-- Counterexample to claim C1: two `create` calls that receive the identical
options object are bound to the very same mutable object (equal references),
and mutating the caller's object after `create` does change the tasks' stored
configuration — `toConstantValue` does not deep-copy. -/
theorem taskFactory_no_defensive_copy :
    (TaskFactory.create c1State0 0).1.optionsRef
        = (TaskFactory.create (TaskFactory.create c1State0 0).2 0).1.optionsRef
    ∧ FactoryTask.config c1State0 (TaskFactory.create c1State0 0).1 = some echoOptions
    ∧ FactoryTask.config
        (FactoryState.write (TaskFactory.create (TaskFactory.create c1State0 0).2 0).2
          0 mutatedOptions)
        (TaskFactory.create c1State0 0).1 = some mutatedOptions
    ∧ mutatedOptions ≠ echoOptions := by
  decide

/-- Claim C1 amended: every `create` call binds the task to a fresh
configuration scope (a new child container), but the scope holds the caller's
options object by reference — `toConstantValue(options)` — without copying:
the task's bound reference is exactly the argument and the heap of options
objects is untouched, so callers passing one object to two calls share it. -/
theorem taskFactory_create_fresh_scope_shared_reference (st : FactoryState) (r1 r2 : Nat) :
    (TaskFactory.create st r1).1.scopeId
        ≠ (TaskFactory.create (TaskFactory.create st r1).2 r2).1.scopeId
    ∧ (TaskFactory.create st r1).1.optionsRef = r1
    ∧ (TaskFactory.create (TaskFactory.create st r1).2 r2).1.optionsRef = r2
    ∧ ((TaskFactory.create (TaskFactory.create st r1).2 r2).2).heap = st.heap := by
  refine ⟨?_, rfl, rfl, rfl⟩
  simp [TaskFactory.create]

/-- Witness for the amended C1 at a concrete world and pair of references. -/
theorem taskFactory_create_fresh_scope_shared_reference_witness :
    (TaskFactory.create c1State0 0).1.scopeId
        ≠ (TaskFactory.create (TaskFactory.create c1State0 0).2 1).1.scopeId
    ∧ (TaskFactory.create c1State0 0).1.optionsRef = 0
    ∧ (TaskFactory.create (TaskFactory.create c1State0 0).2 1).1.optionsRef = 1
    ∧ ((TaskFactory.create (TaskFactory.create c1State0 0).2 1).2).heap = c1State0.heap :=
  taskFactory_create_fresh_scope_shared_reference c1State0 0 1

/-- From the task backend module (`bind(ConnectionHandler).toDynamicValue`):
on a new connection the JSON-RPC handler attaches the client through
`setClient(client)` and registers
`client.onDidCloseConnection(() => taskServer.disconnectClient(client))`;
the result is the attached server state and the registered close callback. -/
def connectionHandlerOnConnection (σ : TaskServer) (client : Nat) :
    TaskServer × (TaskServer → TaskServer) :=
  (σ.setClient client, fun σ2 => σ2.disconnectClient client)

/-- An idle server state used by concrete witnesses. -/
def idleServer : TaskServer :=
  { clients := [], manager := TaskManager.initial, spawned := [], killRequests := [] }

/-- Claim C7: the close callback the connection handler registers invokes
`disconnectClient` with the same client handle the connection attached — the
identical detach path a graceful unsubscribe uses — and running it removes
that client from the broadcast set. -/
theorem connection_close_runs_disconnectClient (σ σ2 : TaskServer) (client : Nat) :
    (connectionHandlerOnConnection σ client).2 σ2 = σ2.disconnectClient client
    ∧ client ∉ ((connectionHandlerOnConnection σ client).2
        ((connectionHandlerOnConnection σ client).1)).clients := by
  refine ⟨rfl, ?_⟩
  simp [connectionHandlerOnConnection, TaskServer.disconnectClient, List.mem_filter]

/-- Witness for C7 at a concrete server state and client handle. -/
theorem connection_close_runs_disconnectClient_witness :
    (connectionHandlerOnConnection idleServer 7).2 idleServer
        = TaskServer.disconnectClient idleServer 7
    ∧ 7 ∉ ((connectionHandlerOnConnection idleServer 7).2
        ((connectionHandlerOnConnection idleServer 7).1)).clients :=
  connection_close_runs_disconnectClient idleServer idleServer 7

/-- Once a task has exited, no further stimulus changes its state or emits an
event. -/
theorem task_runActions_from_Exited (acts : List TaskAction) :
    Task.runActions TaskState.Exited acts = (TaskState.Exited, []) := by
  induction acts with
  | nil => rfl
  | cons a rest ih =>
      cases a <;> simp [Task.runActions, Task.step, ih]

/-- From the Running state, the remaining trace is empty or one `exited`
event. -/
theorem task_runActions_from_Running (acts : List TaskAction) :
    (Task.runActions TaskState.Running acts).2 = []
    ∨ ∃ c, (Task.runActions TaskState.Running acts).2 = [TaskEvent.exited c] := by
  induction acts with
  | nil => exact Or.inl rfl
  | cons a rest ih =>
      cases a with
      | start pid =>
          simpa [Task.runActions, Task.step] using ih
      | procExit c =>
          refine Or.inr ⟨c, ?_⟩
          simp [Task.runActions, Task.step, task_runActions_from_Exited]

/-- From the Created state, the full trace is empty, a lone `started`, or a
`started` followed by one `exited`. -/
theorem task_runActions_from_Created (acts : List TaskAction) :
    (Task.runActions TaskState.Created acts).2 = []
    ∨ (∃ p, (Task.runActions TaskState.Created acts).2 = [TaskEvent.started p])
    ∨ (∃ p c, (Task.runActions TaskState.Created acts).2
        = [TaskEvent.started p, TaskEvent.exited c]) := by
  induction acts with
  | nil => exact Or.inl rfl
  | cons a rest ih =>
      cases a with
      | start pid =>
          rcases task_runActions_from_Running rest with h | ⟨c, h⟩
          · refine Or.inr (Or.inl ⟨pid, ?_⟩)
            simp [Task.runActions, Task.step, h]
          · refine Or.inr (Or.inr ⟨pid, c, ?_⟩)
            simp [Task.runActions, Task.step, h]
      | procExit c =>
          simpa [Task.runActions, Task.step] using ih

/-- Claim C2: a task's only transitions are Created→Running (taken at most
once, on start) and Running→Exited (taken at most once, on process exit), and
under every stimulus sequence the event trace from Created is empty, a single
`started`, or a `started` followed strictly later by a single `exited` — so
`started` is emitted at most once and every `exited` comes after it. -/
theorem task_started_once_before_exited (acts : List TaskAction) :
    (∀ s a, (Task.step s a).1 = s
        ∨ (s = TaskState.Created ∧ (Task.step s a).1 = TaskState.Running)
        ∨ (s = TaskState.Running ∧ (Task.step s a).1 = TaskState.Exited))
    ∧ ((Task.runActions TaskState.Created acts).2 = []
        ∨ (∃ p, (Task.runActions TaskState.Created acts).2 = [TaskEvent.started p])
        ∨ (∃ p c, (Task.runActions TaskState.Created acts).2
            = [TaskEvent.started p, TaskEvent.exited c])) := by
  constructor
  · intro s a
    cases s <;> cases a <;> simp [Task.step]
  · exact task_runActions_from_Created acts

/-- A server state with two attached clients, for concrete witnesses. -/
def twoClientServer : TaskServer :=
  { clients := [1, 2], manager := TaskManager.initial, spawned := [], killRequests := [] }

/-- Claim C8: `disconnectClient` is idempotent — a second detach of the same
client yields the very same state — and detaching a client that is not
attached is a no-op (total, no error, no side effect). -/
theorem disconnectClient_idempotent (σ : TaskServer) (c : Nat) :
    (σ.disconnectClient c).disconnectClient c = σ.disconnectClient c
    ∧ (c ∉ σ.clients → σ.disconnectClient c = σ) := by
  constructor
  · simp [TaskServer.disconnectClient, List.filter_filter]
  · intro h
    cases σ with
    | mk cls mgr sp kr =>
        have hf : cls.filter (fun x => x != c) = cls := by
          apply List.filter_eq_self.mpr
          intro a ha
          have hne : a ≠ c := by
            intro he
            exact h (he ▸ ha)
          simpa using hne
        simp [TaskServer.disconnectClient, hf]

/-- Witness for C8: detaching an absent client twice at a concrete state. -/
theorem disconnectClient_idempotent_witness :
    (TaskServer.disconnectClient (TaskServer.disconnectClient twoClientServer 3) 3
        = TaskServer.disconnectClient twoClientServer 3)
    ∧ TaskServer.disconnectClient twoClientServer 3 = twoClientServer :=
  ⟨(disconnectClient_idempotent twoClientServer 3).1,
   (disconnectClient_idempotent twoClientServer 3).2 (by decide)⟩

/-- Claim C6: `run` with options missing a command fails synchronously with
`InvalidTaskOptions`, returns no id, leaves the whole server state — in
particular the `getTasks()` snapshot and the set of spawned processes —
unchanged. -/
theorem run_missing_command (σ : TaskServer) (opts : TaskOptions)
    (h : opts.command = none) :
    (σ.run opts).1 = Except.error TaskError.InvalidTaskOptions
    ∧ (σ.run opts).2 = σ
    ∧ (σ.run opts).2.getTasks = σ.getTasks
    ∧ (σ.run opts).2.spawned = σ.spawned := by
  refine ⟨?_, ?_, ?_, ?_⟩ <;> simp [TaskServer.run, h]

/-- Concrete options with no command. -/
def noCommandOptions : TaskOptions := { command := none, args := ["hi"] }

/-- Witness for C6 at a concrete server state and option value. -/
theorem run_missing_command_witness :
    (idleServer.run noCommandOptions).1 = Except.error TaskError.InvalidTaskOptions
    ∧ (idleServer.run noCommandOptions).2 = idleServer
    ∧ (idleServer.run noCommandOptions).2.getTasks = idleServer.getTasks
    ∧ (idleServer.run noCommandOptions).2.spawned = idleServer.spawned :=
  run_missing_command idleServer noCommandOptions rfl

/-- An absent key looks up to nothing. -/
theorem lookup_eq_none_of_not_mem_keys {β : Type} (tid : Nat) (l : List (Nat × β))
    (h : tid ∉ l.map Prod.fst) : List.lookup tid l = none := by
  induction l with
  | nil => rfl
  | cons p rest ih =>
      obtain ⟨k, v⟩ := p
      simp only [List.map_cons, List.mem_cons] at h
      push_neg at h
      have hne : (tid == k) = false := beq_false_of_ne h.1
      simp [List.lookup, hne, ih h.2]

/-- Claim C5: for an id that is not in the registry (never returned by
`register` — by the C4 characterization the registry keys are exactly the
returned ids), `get` fails with `TaskNotFound` and `kill` fails with
`TaskNotFound` returning the state unchanged. -/
theorem get_kill_unknown_id (σ : TaskServer) (tid : Nat)
    (h : tid ∉ σ.manager.tasks.map Prod.fst) :
    σ.manager.get tid = Except.error TaskError.TaskNotFound
    ∧ σ.kill tid = (Except.error TaskError.TaskNotFound, σ) := by
  have hl : List.lookup tid σ.manager.tasks = none :=
    lookup_eq_none_of_not_mem_keys tid σ.manager.tasks h
  constructor
  · simp [TaskManager.get, hl]
  · simp [TaskServer.kill, hl]

/-- Witness for C5: the spec's scenario `kill(99)` (and `get 99`) on a server
that never registered id 99. -/
theorem get_kill_unknown_id_witness :
    TaskManager.get twoClientServer.manager 99 = Except.error TaskError.TaskNotFound
    ∧ TaskServer.kill twoClientServer 99 = (Except.error TaskError.TaskNotFound, twoClientServer) :=
  get_kill_unknown_id twoClientServer 99 (by decide)

/-- The ids a batch of registrations returns are the consecutive naturals
starting at the allocation counter. -/
theorem registerAll_ids (m : TaskManager) (ts : List ManagedTask) :
    (m.registerAll ts).1 = List.range' m.nextId ts.length := by
  induction ts generalizing m with
  | nil => rfl
  | cons t rest ih =>
      simp [TaskManager.registerAll, TaskManager.register, ih, List.range'_succ]

/-- Registration appends exactly the returned ids to the registry keys. -/
theorem registerAll_keys (m : TaskManager) (ts : List ManagedTask) :
    (m.registerAll ts).2.tasks.map Prod.fst
      = m.tasks.map Prod.fst ++ List.range' m.nextId ts.length := by
  induction ts generalizing m with
  | nil => simp [TaskManager.registerAll]
  | cons t rest ih =>
      simp [TaskManager.registerAll, TaskManager.register, ih, List.range'_succ]

/-- Claim C4: a batch of `register` calls on a registry whose keys are below
the allocation counter returns ids that are exactly the next consecutive
naturals, pairwise strictly increasing in call order (hence distinct), each
mapping to exactly one registry entry, and none ever used before. -/
theorem register_ids_distinct_monotone (m : TaskManager) (ts : List ManagedTask)
    (h : ∀ k ∈ m.tasks.map Prod.fst, k < m.nextId) :
    (m.registerAll ts).1 = List.range' m.nextId ts.length
    ∧ (m.registerAll ts).1.Pairwise (· < ·)
    ∧ (∀ tid ∈ (m.registerAll ts).1,
        ((m.registerAll ts).2.tasks.map Prod.fst).count tid = 1)
    ∧ (∀ tid ∈ (m.registerAll ts).1, tid ∉ m.tasks.map Prod.fst) := by
  have hge : ∀ tid ∈ (m.registerAll ts).1, m.nextId ≤ tid := by
    intro tid htid
    rw [registerAll_ids] at htid
    exact (List.mem_range'_1.mp htid).1
  have hnotold : ∀ tid ∈ (m.registerAll ts).1, tid ∉ m.tasks.map Prod.fst := by
    intro tid htid hold
    exact absurd (h tid hold) (Nat.not_lt.mpr (hge tid htid))
  refine ⟨registerAll_ids m ts, ?_, ?_, hnotold⟩
  · rw [registerAll_ids]
    exact List.pairwise_lt_range' m.nextId ts.length
  · intro tid htid
    rw [registerAll_keys, List.count_append]
    have h0 : (m.tasks.map Prod.fst).count tid = 0 :=
      List.count_eq_zero.mpr (hnotold tid htid)
    have h1 : (List.range' m.nextId ts.length).count tid = 1 := by
      apply List.count_eq_one_of_mem (List.nodup_range' m.nextId ts.length)
      rw [registerAll_ids] at htid
      exact htid
    rw [h0, h1]

/-- A concrete task value for witnesses. -/
def sampleTask : ManagedTask := { options := echoOptions, state := TaskState.Created }

/-- Witness for C4: registering two tasks on the fresh registry. -/
theorem register_ids_distinct_monotone_witness :
    (TaskManager.initial.registerAll [sampleTask, sampleTask]).1
        = List.range' TaskManager.initial.nextId [sampleTask, sampleTask].length
    ∧ (TaskManager.initial.registerAll [sampleTask, sampleTask]).1.Pairwise (· < ·)
    ∧ (∀ tid ∈ (TaskManager.initial.registerAll [sampleTask, sampleTask]).1,
        ((TaskManager.initial.registerAll [sampleTask, sampleTask]).2.tasks.map Prod.fst).count tid = 1)
    ∧ (∀ tid ∈ (TaskManager.initial.registerAll [sampleTask, sampleTask]).1,
        tid ∉ TaskManager.initial.tasks.map Prod.fst) :=
  register_ids_distinct_monotone TaskManager.initial [sampleTask, sampleTask] (by decide)

/-- Running a concatenation of operation sequences runs them in order and
concatenates their deliveries. -/
theorem serverRun_append (σ : TaskServer) (l1 l2 : List ServerOp) :
    serverRun σ (l1 ++ l2)
      = ((serverRun (serverRun σ l1).1 l2).1,
         (serverRun σ l1).2 ++ (serverRun (serverRun σ l1).1 l2).2) := by
  induction l1 generalizing σ with
  | nil => simp [serverRun]
  | cons op rest ih =>
      simp [serverRun, ih, List.append_assoc]

/-- Claim C3: an event emitted after a sequence of attach/detach/emit
operations is delivered to exactly the clients attached at that moment (a
snapshot of the broadcast set); a client not attached then — in particular one
that only attaches afterwards — receives nothing from that emission (no
replay). -/
theorem event_delivered_exactly_to_attached (σ : TaskServer) (ops1 ops2 : List ServerOp)
    (e : TaskEvent) (c : Nat) (h : c ∉ (serverRun σ ops1).1.clients) :
    (serverRun σ (ops1 ++ ServerOp.emitEvent e :: ops2)).2
      = (serverRun σ ops1).2
        ++ (serverRun σ ops1).1.clients.map (fun k => (k, e))
        ++ (serverRun (serverRun σ ops1).1 ops2).2
    ∧ (c, e) ∉ (serverRun σ ops1).1.clients.map (fun k => (k, e)) := by
  constructor
  · rw [serverRun_append]
    simp [serverRun, serverStep, TaskServer.fanout, List.append_assoc]
  · intro hc
    rcases List.mem_map.mp hc with ⟨k, hk, hke⟩
    have hkc : k = c := congrArg Prod.fst hke
    exact h (hkc ▸ hk)

/-- Witness for C3: clients 1 and 2 are attached when the event fires; client
3, attached only afterwards, is not among its recipients. -/
theorem event_delivered_exactly_to_attached_witness :
    (serverRun idleServer ([ServerOp.attach 1, ServerOp.attach 2]
        ++ ServerOp.emitEvent (TaskEvent.exited 0) :: [ServerOp.attach 3])).2
      = (serverRun idleServer [ServerOp.attach 1, ServerOp.attach 2]).2
        ++ (serverRun idleServer [ServerOp.attach 1, ServerOp.attach 2]).1.clients.map
            (fun k => (k, TaskEvent.exited 0))
        ++ (serverRun (serverRun idleServer [ServerOp.attach 1, ServerOp.attach 2]).1
            [ServerOp.attach 3]).2
    ∧ (3, TaskEvent.exited 0)
        ∉ (serverRun idleServer [ServerOp.attach 1, ServerOp.attach 2]).1.clients.map
            (fun k => (k, TaskEvent.exited 0)) :=
  event_delivered_exactly_to_attached idleServer [ServerOp.attach 1, ServerOp.attach 2]
    [ServerOp.attach 3] (TaskEvent.exited 0) 3 (by decide)
